import Mathlib

/-!
Shallow embedding of the link-to-JSON metadata-extraction service.

Sources embedded here:
  * `src/src/link-to-JSON.go` — the legacy single-file implementation:
    `ResponseItem`, `WebImage`, `fetchMetadata` (colly-based scraping with a
    site-name fallback fetch), `getBaseDomain`, the go-cache response cache,
    the `x/time/rate` token-bucket limiter, and the `/extract` handler.
  * `src/unnamed/part_000` — the current `main` package: the `/extract`
    handler that additionally validates the `url` query parameter with
    `net/url.ParseRequestURI` before fetching (the fetch itself is delegated
    to an external library and is treated as an oracle parameter).

Library semantics used by that code are embedded from their sources:
  * Go `net/url` parsing (`Parse` / `ParseRequestURI`), modelled from the Go
    standard library (`src/net/url/url.go`, Go 1.22 per the Dockerfile).
    Strings are modelled as lists of characters; the inputs the theorems
    evaluate are ASCII, where Go's byte-wise scanning and the character-wise
    scanning here agree.
  * `patrickmn/go-cache`: `Get` misses when `now > expiration`; `Set` stores
    with `expiration = now + TTL` (TTL 30 minutes), replacing any entry.
  * `golang.org/x/time/rate`: `Allow` = `reserveN(now, 1, 0)`; tokens are
    modelled over `ℚ` (the source uses float64; the scenarios proved use only
    values on which the two agree exactly).
  * `gocolly/colly` `Collector.Visit`: rejects an empty URL (`ErrMissingURL`)
    and a URL that `net/url.Parse` rejects; otherwise the outcome (document
    or network/HTTP failure) is an oracle `Net`. colly runs each selector's
    callback over its matches in document order; since the selectors of
    `fetchMetadata` write pairwise disjoint fields, this equals one fold over
    the document applying every matcher per element, which is what is done
    here. The HTML document itself is modelled as the list, in document
    order, of elements (tag, attributes, text) presented to the selectors.
-/

/-- One HTML element as seen by the selector callbacks: tag name (lowercase),
attribute list in source order, and text content. -/
structure HtmlElement where
  tag : String
  attrs : List (String × String)
  text : String
deriving DecidableEq, Repr

/-- A fetched HTML document: its elements in document order. -/
abbrev Document := List HtmlElement

/-- The network/HTTP oracle: what a GET of a given URL string yields —
`none` is a network error or non-success status (colly's `Visit` returns an
error), `some doc` a successfully fetched document. -/
abbrev Net := String → Option Document

/-- `WebImage` from src/src/link-to-JSON.go (JSON field names url, alt, type,
width, height; `typ` stands for the Go field `Type`). -/
structure WebImage where
  url : String := ""
  alt : String := ""
  typ : String := ""
  width : Int := 0
  height : Int := 0
deriving DecidableEq, Repr

/-- `ResponseItem` from src/src/link-to-JSON.go (JSON field names title,
description, images, sitename, favicon, duration, domain, url). -/
structure ResponseItem where
  title : String := ""
  description : String := ""
  images : List WebImage := []
  sitename : String := ""
  favicon : String := ""
  duration : Int := 0
  domain : String := ""
  url : String := ""
deriving DecidableEq, Repr

/-- `e.Attr(k)` of colly: the value of the first attribute named `k`, or the
empty string when absent. -/
def HtmlElement.attr (e : HtmlElement) (k : String) : String :=
  match e.attrs.find? (fun p => p.1 == k) with
  | some p => p.2
  | none => ""

/-- Does element `e` carry attribute `k` with exact value `v` (the CSS
selector form `tag[k="v"]`)? -/
def attrIs (e : HtmlElement) (k v : String) : Bool :=
  match e.attrs.find? (fun p => p.1 == k) with
  | some p => p.2 == v
  | none => false

/-- Selector `title`. -/
def isTitleTag (e : HtmlElement) : Bool := e.tag == "title"

/-- Selector `meta[name="description"]`. -/
def isDescMeta (e : HtmlElement) : Bool := e.tag == "meta" && attrIs e "name" "description"

/-- The combined favicon selector `link[rel="icon"], link[rel="shortcut icon"],
link[rel="apple-touch-icon"], link[rel="apple-touch-icon-precomposed"]`. -/
def isIconLink (e : HtmlElement) : Bool :=
  e.tag == "link" &&
    (attrIs e "rel" "icon" || attrIs e "rel" "shortcut icon" ||
     attrIs e "rel" "apple-touch-icon" || attrIs e "rel" "apple-touch-icon-precomposed")

/-- Selector `meta[property=p]` for the Open Graph properties. -/
def isOgMeta (e : HtmlElement) (p : String) : Bool :=
  e.tag == "meta" && attrIs e "property" p

/-- Digits of a decimal literal, or `none` when empty or not all digits. -/
def digitsToNat? : List Char → Option Nat
  | [] => none
  | cs =>
    if cs.all (fun c => '0' ≤ c && c ≤ '9') then
      some (cs.foldl (fun n c => n * 10 + (c.toNat - '0'.toNat)) 0)
    else none

/-- Go `strconv.Atoi` on a 64-bit `int`: optional sign, one or more decimal
digits, and the value must fit in int64 (out of range is an error). -/
def goAtoi (s : String) : Option Int :=
  match s.data with
  | '+' :: rest => (digitsToNat? rest).bind fun n =>
      if n ≤ 2 ^ 63 - 1 then some (Int.ofNat n) else none
  | '-' :: rest => (digitsToNat? rest).bind fun n =>
      if n ≤ 2 ^ 63 then some (-(Int.ofNat n)) else none
  | _ => (digitsToNat? s.data).bind fun n =>
      if n ≤ 2 ^ 63 - 1 then some (Int.ofNat n) else none

/-- One element passing through every `OnHTML` callback registered by
`fetchMetadata` (src/src/link-to-JSON.go lines 60–96), in registration
order. The state is the in-progress `result` record and the single
in-progress `webImage`. -/
def applyElement (st : ResponseItem × WebImage) (e : HtmlElement) : ResponseItem × WebImage :=
  let r := st.1
  let w := st.2
  let r := if isTitleTag e then (if r.title == "" then { r with title := e.text } else r) else r
  let r := if isDescMeta e then { r with description := e.attr "content" } else r
  let r := if isIconLink e then
      (if r.favicon == "" then { r with favicon := r.domain ++ e.attr "href" } else r)
    else r
  let r := if isOgMeta e "og:site_name" then { r with sitename := e.attr "content" } else r
  let w := if isOgMeta e "og:image" then { w with url := e.attr "content" } else w
  let w := if isOgMeta e "og:image:alt" then { w with alt := e.attr "content" } else w
  let w := if isOgMeta e "og:image:type" then { w with typ := e.attr "content" } else w
  let w := if isOgMeta e "og:image:width" then
      match goAtoi (e.attr "content") with
      | some n => { w with width := n }
      | none => w
    else w
  let w := if isOgMeta e "og:image:height" then
      match goAtoi (e.attr "content") with
      | some n => { w with height := n }
      | none => w
    else w
  (r, w)

/-- The primary scrape of `fetchMetadata`: the fresh `result` (url and domain
set, empty images), the fold of every element through the callbacks, and the
`OnScraped` append of the in-progress image descriptor. -/
def scanDocument (url domain : String) (doc : Document) : ResponseItem :=
  let init : ResponseItem × WebImage :=
    ({ url := url, images := [], domain := domain }, {})
  let fin := doc.foldl applyElement init
  { fin.1 with images := fin.1.images ++ [fin.2] }

/-- The fallback collector `c2` of `fetchMetadata` (lines 110–115): only the
`meta[property="og:title"]` callback is registered; each match overwrites
`result.Sitename` with its content attribute. -/
def fallbackSitename (doc : Document) (init : String) : String :=
  doc.foldl (fun s e => if isOgMeta e "og:title" then e.attr "content" else s) init

/-! ### Go `net/url` parsing (Go 1.22 `src/net/url/url.go`)

`getBaseDomain` calls `url.Parse`; the part_000 handler calls
`url.ParseRequestURI`; colly's `Visit` parses with `url.Parse` as well.
Strings are handled character-wise; on ASCII input this coincides with Go's
byte-wise handling. -/

/-- First index of character `c` in `cs` (Go `strings.Index` on one byte). -/
def idxOf? : List Char → Char → Option Nat
  | [], _ => none
  | x :: xs, c => if x = c then some 0 else (idxOf? xs c).map (· + 1)

/-- Last index of character `c` in `cs` (Go `strings.LastIndex`). -/
def lastIdxOf? (cs : List Char) (c : Char) : Option Nat :=
  match idxOf? cs.reverse c with
  | some i => some (cs.length - 1 - i)
  | none => none

/-- First index at which `pat` occurs as a contiguous run in `cs`
(Go `strings.Index` on a substring). -/
def subIdxOf? : List Char → List Char → Option Nat
  | _, [] => some 0
  | [], _ => none
  | x :: xs, pat =>
    if pat.isPrefixOf (x :: xs) then some 0 else (subIdxOf? xs pat).map (· + 1)

/-- Go `strings.HasPrefix` (character-wise; core `String.startsWith` is
avoided because its byte-position implementation does not reduce in the
kernel). -/
def strStartsWith (s p : String) : Bool := p.data.isPrefixOf s.data

/-- Go `strings.HasSuffix`. -/
def strEndsWith (s p : String) : Bool := p.data.isSuffixOf s.data

/-- Go `strings.ToLower` on ASCII (the only characters a scheme can contain). -/
def asciiLower (s : String) : String :=
  ⟨s.data.map fun c => if 'A' ≤ c && c ≤ 'Z' then Char.ofNat (c.toNat + 32) else c⟩

/-- The first `n` characters of `s` (Go slice `s[:n]` on ASCII). -/
def strTake (s : String) (n : Nat) : String := ⟨s.data.take n⟩

/-- `s` without its first `n` characters (Go slice `s[n:]` on ASCII). -/
def strDrop (s : String) (n : Nat) : String := ⟨s.data.drop n⟩

/-- `s` without its final character (`strings.TrimSuffix` by one character). -/
def strDropLast (s : String) : String := ⟨s.data.dropLast⟩

/-- Go `strings.Cut(s, string(c))`: the part before the first `c` and the part
after it (`(s, "")` when `c` does not occur). -/
def cutAtChar (s : String) (c : Char) : String × String :=
  match idxOf? s.data c with
  | none => (s, "")
  | some i => (strTake s i, strDrop s (i + 1))

/-- Go `stringContainsCTLByte`: any byte below 0x20 or equal to 0x7f. -/
def stringContainsCTLByte (s : String) : Bool :=
  s.data.any fun c => c.toNat < 0x20 || c.toNat == 0x7f

/-- Go `ishex`. -/
def ishex (c : Char) : Bool :=
  ('0' ≤ c && c ≤ '9') || ('a' ≤ c && c ≤ 'f') || ('A' ≤ c && c ≤ 'F')

/-- Go `unhex`. -/
def unhex (c : Char) : Nat :=
  if '0' ≤ c && c ≤ '9' then c.toNat - '0'.toNat
  else if 'a' ≤ c && c ≤ 'f' then c.toNat - 'a'.toNat + 10
  else if 'A' ≤ c && c ≤ 'F' then c.toNat - 'A'.toNat + 10
  else 0

/-- The `encoding` modes of Go `net/url`. -/
inductive GoEnc
  | path
  | pathSegment
  | host
  | zone
  | userPassword
  | queryComponent
  | fragment
deriving DecidableEq, Repr

/-- Go `shouldEscape(c, mode)`. -/
def shouldEscape (c : Char) (mode : GoEnc) : Bool :=
  if ('a' ≤ c && c ≤ 'z') || ('A' ≤ c && c ≤ 'Z') || ('0' ≤ c && c ≤ '9') then false
  else if (mode = GoEnc.host || mode = GoEnc.zone) &&
      (c = '!' || c = '$' || c = '&' || c = '\'' || c = '(' || c = ')' ||
       c = '*' || c = '+' || c = ',' || c = ';' || c = '=' || c = ':' ||
       c = '[' || c = ']' || c = '<' || c = '>' || c = '"') then false
  else if c = '-' || c = '_' || c = '.' || c = '~' then false
  else if c = '$' || c = '&' || c = '+' || c = ',' || c = '/' || c = ':' ||
      c = ';' || c = '=' || c = '?' || c = '@' then
    match mode with
    | .path => c = '?'
    | .pathSegment => c = '/' || c = ';' || c = ',' || c = '?'
    | .userPassword => c = '@' || c = '/' || c = '?' || c = ':'
    | .queryComponent => true
    | .fragment => false
    | _ => true
  else if mode = GoEnc.fragment && (c = '!' || c = '(' || c = ')' || c = '*') then false
  else true

/-- Go `unescape(s, mode)`, scan and decode merged: `none` is Go's error
(malformed percent escape, a host-mode escape of an ASCII byte other than
`%25`, a zone-mode escape of a forbidden byte, or a bare invalid host
character), `some` the decoded text. -/
def unescapeScan (mode : GoEnc) : List Char → Option (List Char)
  | [] => some []
  | '%' :: c1 :: c2 :: rest =>
    if ishex c1 && ishex c2 then
      if mode = GoEnc.host && unhex c1 < 8 && !(c1 = '2' && c2 = '5') then none
      else
        let v := unhex c1 * 16 + unhex c2
        if mode = GoEnc.zone && !(c1 = '2' && c2 = '5') && v ≠ 32 &&
            shouldEscape (Char.ofNat v) GoEnc.host then none
        else (unescapeScan mode rest).map fun t => Char.ofNat v :: t
    else none
  | '%' :: _ :: [] => none
  | ['%'] => none
  | '+' :: rest =>
    (unescapeScan mode rest).map fun t =>
      (if mode = GoEnc.queryComponent then ' ' else '+') :: t
  | c :: rest =>
    if (mode = GoEnc.host || mode = GoEnc.zone) && c.toNat < 0x80 && shouldEscape c mode then
      none
    else (unescapeScan mode rest).map fun t => c :: t

/-- Go `unescape` on a string. -/
def unescapeGo (s : String) (mode : GoEnc) : Option String :=
  (unescapeScan mode s.data).map fun cs => ⟨cs⟩

/-- Go `validOptionalPort`. -/
def validOptionalPort (port : String) : Bool :=
  match port.data with
  | [] => true
  | ':' :: rest => rest.all fun c => '0' ≤ c && c ≤ '9'
  | _ => false

/-- Go `validUserinfo`. -/
def validUserinfo (s : String) : Bool :=
  s.data.all fun c =>
    ('A' ≤ c && c ≤ 'Z') || ('a' ≤ c && c ≤ 'z') || ('0' ≤ c && c ≤ '9') ||
    c = '-' || c = '.' || c = '_' || c = ':' || c = '~' || c = '!' ||
    c = '$' || c = '&' || c = '\'' || c = '(' || c = ')' || c = '*' ||
    c = '+' || c = ',' || c = ';' || c = '=' || c = '%' || c = '@'

/-- Go `parseHost`. -/
def parseHost (host : String) : Option String :=
  if strStartsWith host "[" then
    match lastIdxOf? host.data ']' with
    | none => none
    | some i =>
      let colonPort := strDrop host (i + 1)
      if !validOptionalPort colonPort then none
      else
        match subIdxOf? (host.data.take i) ['%', '2', '5'] with
        | some zone =>
          match unescapeGo (strTake host zone) GoEnc.host,
              unescapeGo ⟨(host.data.take i).drop zone⟩ GoEnc.zone,
              unescapeGo (strDrop host i) GoEnc.host with
          | some h1, some h2, some h3 => some (h1 ++ h2 ++ h3)
          | _, _, _ => none
        | none => unescapeGo host GoEnc.host
  else
    match lastIdxOf? host.data ':' with
    | none => unescapeGo host GoEnc.host
    | some i =>
      let colonPort := strDrop host i
      if !validOptionalPort colonPort then none
      else unescapeGo host GoEnc.host

/-- Go `parseAuthority`: the optional userinfo (represented as the decoded
`user` or `user:password` text) and the parsed host. -/
def parseAuthority (authority : String) : Option (Option String × String) :=
  match lastIdxOf? authority.data '@' with
  | none =>
    match parseHost authority with
    | none => none
    | some h => some (none, h)
  | some i =>
    match parseHost (strDrop authority (i + 1)) with
    | none => none
    | some host =>
      let userinfo := strTake authority i
      if !validUserinfo userinfo then none
      else if !(userinfo.data.contains ':') then
        match unescapeGo userinfo GoEnc.userPassword with
        | none => none
        | some u => some (some u, host)
      else
        let unpw := cutAtChar userinfo ':'
        match unescapeGo unpw.1 GoEnc.userPassword, unescapeGo unpw.2 GoEnc.userPassword with
        | some u, some p => some (some (u ++ ":" ++ p), host)
        | _, _ => none

/-- The result of `getScheme`'s scan: an error (colon at position 0), no
scheme, or a colon ending the scheme at index `i`. -/
inductive SchemeScan
  | err
  | noScheme
  | colonAt (i : Nat)
deriving DecidableEq, Repr

/-- The character loop of Go `getScheme`. -/
def schemeScan : List Char → Nat → SchemeScan
  | [], _ => .noScheme
  | c :: cs, i =>
    if ('a' ≤ c && c ≤ 'z') || ('A' ≤ c && c ≤ 'Z') then schemeScan cs (i + 1)
    else if ('0' ≤ c && c ≤ '9') || c = '+' || c = '-' || c = '.' then
      if i = 0 then .noScheme else schemeScan cs (i + 1)
    else if c = ':' then
      if i = 0 then .err else .colonAt i
    else .noScheme

/-- Go `getScheme`: splits `scheme:rest`, `("", rawURL)` when there is no
scheme, `none` on "missing protocol scheme". -/
def getScheme (raw : String) : Option (String × String) :=
  match schemeScan raw.data 0 with
  | .err => none
  | .noScheme => some ("", raw)
  | .colonAt i => some (strTake raw i, strDrop raw (i + 1))

/-- Go `url.URL`, restricted to the fields this program can observe (`opq` is
Go's `Opaque`; the raw userinfo is kept decoded in `userinfo`). -/
structure GoURL where
  scheme : String := ""
  opq : String := ""
  userinfo : Option String := none
  host : String := ""
  path : String := ""
  rawQuery : String := ""
  forceQuery : Bool := false
  omitHost : Bool := false
  fragment : String := ""
deriving DecidableEq, Repr

/-- The authority-and-path tail of Go `parse` (everything after the rootless
checks: the `//authority` split, `OmitHost`, and `setPath`). -/
def goParseTail (scheme : String) (viaRequest : Bool) (rest rawQuery : String)
    (forceQuery : Bool) : Option GoURL :=
  if (scheme ≠ "" || (!viaRequest && !(strStartsWith rest "///"))) && strStartsWith rest "//" then
    let authorityAll := strDrop rest 2
    let split :=
      match idxOf? authorityAll.data '/' with
      | some i => (strTake authorityAll i, strDrop authorityAll i)
      | none => (authorityAll, "")
    match parseAuthority split.1 with
    | none => none
    | some uh =>
      match unescapeGo split.2 GoEnc.path with
      | none => none
      | some p =>
        some { scheme := scheme, userinfo := uh.1, host := uh.2, path := p,
               rawQuery := rawQuery, forceQuery := forceQuery }
  else
    match unescapeGo rest GoEnc.path with
    | none => none
    | some p =>
      some { scheme := scheme, path := p, rawQuery := rawQuery,
             forceQuery := forceQuery,
             omitHost := scheme ≠ "" && strStartsWith rest "/" }

/-- Go `parse(rawURL, viaRequest)`. -/
def goParseVia (rawURL : String) (viaRequest : Bool) : Option GoURL :=
  if stringContainsCTLByte rawURL then none
  else if rawURL = "" && viaRequest then none
  else if rawURL = "*" then some { path := "*" }
  else
    match getScheme rawURL with
    | none => none
    | some sr =>
      let scheme := asciiLower sr.1
      let rest0 := sr.2
      let split :=
        if strEndsWith rest0 "?" && !((strDropLast rest0).data.contains '?') then
          (strDropLast rest0, "", true)
        else
          let ab := cutAtChar rest0 '?'
          (ab.1, ab.2, false)
      let rest := split.1
      let rawQuery := split.2.1
      let forceQuery := split.2.2
      if !(strStartsWith rest "/") then
        if scheme ≠ "" then
          some { scheme := scheme, opq := rest, rawQuery := rawQuery,
                 forceQuery := forceQuery }
        else if viaRequest then none
        else if ((cutAtChar rest '/').1).data.contains ':' then none
        else goParseTail scheme viaRequest rest rawQuery forceQuery
      else goParseTail scheme viaRequest rest rawQuery forceQuery

/-- Go `url.Parse`: split off the fragment, `parse(u, false)`, then
`setFragment`. -/
def goURLParse (rawURL : String) : Option GoURL :=
  let uf := cutAtChar rawURL '#'
  match goParseVia uf.1 false with
  | none => none
  | some url =>
    if uf.2 = "" then some url
    else
      match unescapeGo uf.2 GoEnc.fragment with
      | none => none
      | some f => some { url with fragment := f }

/-- Go `url.ParseRequestURI`: `parse(rawURL, true)`. -/
def parseRequestURI (rawURL : String) : Option GoURL :=
  goParseVia rawURL true

/-! ### getBaseDomain, colly Visit, go-cache, fetchMetadata -/

/-- `getBaseDomain` from src/src/link-to-JSON.go lines 130–137:
`url.Parse`, empty string on error, else `Scheme + "://" + Host`. -/
def getBaseDomain (url : String) : String :=
  match goURLParse url with
  | none => ""
  | some parsedURL => parsedURL.scheme ++ "://" ++ parsedURL.host

/-- colly `Collector.Visit` for a fresh collector: an empty URL is rejected
(`ErrMissingURL`), a URL `net/url.Parse` rejects is an error, and otherwise
the network oracle decides whether a document is scraped or the visit fails
(network error or non-success status). -/
def collyVisit (net : Net) (u : String) : Option Document :=
  if u = "" then none
  else if (goURLParse u).isNone then none
  else net u

/-- One stored entry of `patrickmn/go-cache`: the item and its absolute
expiration time. Time is `ℚ` seconds (go-cache compares UnixNano values; the
unit change does not affect any comparison). -/
structure CacheEntry where
  item : ResponseItem
  expiration : ℚ
deriving DecidableEq, Repr

/-- The cache map, as an association list (first binding wins). -/
abbrev Cache := List (String × CacheEntry)

/-- `cache.New(30*time.Minute, 60*time.Minute)`: the default TTL, in
seconds. -/
def cacheTTL : ℚ := 30 * 60

/-- go-cache `Get`: a stored entry is returned unless it has expired —
expired exactly when its expiration is set (`Expiration > 0`) and
`now > expiration`. -/
def cacheGet (c : Cache) (now : ℚ) (k : String) : Option ResponseItem :=
  match c.find? (fun p => p.1 == k) with
  | none => none
  | some p =>
    if 0 < p.2.expiration ∧ p.2.expiration < now then none else some p.2.item

/-- go-cache `Set` with `cache.DefaultExpiration`: replaces any entry for `k`
with the item, expiring at `now + cacheTTL`. -/
def cacheSet (c : Cache) (now : ℚ) (k : String) (v : ResponseItem) : Cache :=
  (k, ⟨v, now + cacheTTL⟩) :: c.filter (fun p => p.1 ≠ k)

/-- The handler writes `metadata.Duration` through the pointer it got from
`fetchMetadata`; that pointer is the very object stored in the cache (both on
the miss path, which caches `result` and returns it, and on the hit path,
which returns the cached pointer). This is that aliasing made explicit: the
`duration` field of the entry stored under `k` is overwritten. -/
def cacheDurationWrite (c : Cache) (k : String) (d : Int) : Cache :=
  c.map fun p =>
    if p.1 == k then (p.1, ⟨{ p.2.item with duration := d }, p.2.expiration⟩) else p

/-- The outcome of `fetchMetadata`: the returned record (`none` is the error
return), the cache afterwards, and the URLs handed to colly `Visit`, in
order. -/
structure FetchOut where
  res : Option ResponseItem
  cache : Cache
  visits : List String
deriving DecidableEq, Repr

/-- `fetchMetadata` from src/src/link-to-JSON.go lines 45–128: cache lookup;
on a miss the primary scrape of `url` (with `Domain = getBaseDomain url`),
then, exactly when `Sitename` is still empty, the fallback visit of the bare
domain with only the `og:title` matcher; any failed visit aborts with an
error and nothing cached; on success the record is cached under `url`. -/
def fetchMetadata (net : Net) (cch : Cache) (now : ℚ) (url : String) : FetchOut :=
  match cacheGet cch now url with
  | some cached => ⟨some cached, cch, []⟩
  | none =>
    let domain := getBaseDomain url
    match collyVisit net url with
    | none => ⟨none, cch, [url]⟩
    | some doc =>
      let result := scanDocument url domain doc
      if result.sitename = "" then
        match collyVisit net domain with
        | none => ⟨none, cch, [url, domain]⟩
        | some doc2 =>
          let result2 := { result with sitename := fallbackSitename doc2 result.sitename }
          ⟨some result2, cacheSet cch now url result2, [url, domain]⟩
      else ⟨some result, cacheSet cch now url result, [url]⟩

/-! ### The `x/time/rate` token bucket

`rate.NewLimiter(1, 3)`. Modelled from `golang.org/x/time/rate`'s `reserveN`
and `advance` with `n = 1` and `maxFutureReserve = 0`: tokens refill at
`limit` per second up to `burst`; an admission needs `1 ≤ burst` and a
non-negative balance after taking one token, and commits the new balance
and `last = t`; a denial leaves the limiter unchanged. Token counts and
times are `ℚ`
(the source uses float64 and nanosecond integers; the schedules proved here
use only values on which those agree exactly with `ℚ`). -/

structure Limiter where
  limit : ℚ
  burst : Nat
  tokens : ℚ
  last : ℚ
deriving DecidableEq, Repr

/-- `advance`: the token balance at time `t` (refill since `last`, capped at
`burst`; a `last` in the future is treated as `t`). -/
def Limiter.advance (lim : Limiter) (t : ℚ) : ℚ :=
  let last := if t < lim.last then t else lim.last
  let tokens := lim.tokens + (t - last) * lim.limit
  if (lim.burst : ℚ) < tokens then (lim.burst : ℚ) else tokens

/-- `Allow` at time `t`: whether the request is admitted, and the limiter
afterwards. -/
def Limiter.allowAt (lim : Limiter) (t : ℚ) : Bool × Limiter :=
  let tokens := lim.advance t - 1
  if 1 ≤ lim.burst ∧ 0 ≤ tokens then
    (true, { lim with tokens := tokens, last := t })
  else
    (false, lim)

/-- `rate.NewLimiter(1, 3)` (src/src/link-to-JSON.go line 40 and
src/unnamed/part_000 line 19): limit 1 token/second, burst 3, and the zero
value for `tokens` and `last` (the Go zero time; the first `advance` at any
`t ≥ burst/limit` therefore finds a full bucket). -/
def rateLimiterInit : Limiter := ⟨1, 3, 0, 0⟩

/-- The admission results of a sequence of `Allow` calls at the given times,
threading the limiter state. -/
def allowRun (lim : Limiter) : List ℚ → List Bool
  | [] => []
  | t :: ts =>
    let r := lim.allowAt t
    r.1 :: allowRun r.2 ts

/-! ### The `/extract` handlers -/

/-- The five responses the handlers produce. -/
inductive HandlerResponse
  | tooManyRequests
  | missingUrl
  | invalidUrl
  | fetchFailed
  | ok (r : ResponseItem)
deriving DecidableEq, Repr

/-- The HTTP status of each response (429, 400, 400, 500, 200). -/
def HandlerResponse.status : HandlerResponse → Nat
  | .tooManyRequests => 429
  | .missingUrl => 400
  | .invalidUrl => 400
  | .fetchFailed => 500
  | .ok _ => 200

/-- The `error` string of each failure body (JSON body with a single `error`
field); `none` for the 200 response. -/
def HandlerResponse.errorText : HandlerResponse → Option String
  | .tooManyRequests => some "Too many requests"
  | .missingUrl => some "URL parameter is required"
  | .invalidUrl => some "Invalid URL"
  | .fetchFailed => some "Failed to fetch metadata"
  | .ok _ => none

/-- The shared mutable state of the legacy program: the package-level rate
limiter and the go-cache store. -/
structure ServerState where
  limiter : Limiter
  cch : Cache
deriving DecidableEq, Repr

/-- The `/extract` handler of src/src/link-to-JSON.go lines 160–183, one
request end to end: `rateLimiter.Allow()` first; then the `url` query
parameter (gin's `c.Query` yields `""` when absent) against `""`; then
`fetchMetadata`; on success `metadata.Duration` is set to the elapsed
milliseconds `durMs` — through the shared pointer, which also rewrites the
`duration` of the cache entry. Returns the response, the state afterwards,
and the visited URLs. -/
def serveExtract (net : Net) (st : ServerState) (now : ℚ) (durMs : Int)
    (urlParam : String) : HandlerResponse × ServerState × List String :=
  let adm := st.limiter.allowAt now
  if !adm.1 then (.tooManyRequests, ⟨adm.2, st.cch⟩, [])
  else if urlParam = "" then (.missingUrl, ⟨adm.2, st.cch⟩, [])
  else
    let f := fetchMetadata net st.cch now urlParam
    match f.res with
    | none => (.fetchFailed, ⟨adm.2, f.cache⟩, f.visits)
    | some metadata =>
      (.ok { metadata with duration := durMs },
       ⟨adm.2, cacheDurationWrite f.cache urlParam durMs⟩, f.visits)

/-- The `/extract` handler of src/unnamed/part_000 lines 49–81, one request:
`rateLimiter.Allow()` first; then the missing-`url` check; then the
`URL.ParseRequestURI` validation (400 "Invalid URL" on error); then
`link2json.GetMetadata` — an external library, abstracted as the oracle
`getMetadata` — with its `Duration` overwritten by `durMs` on success.
Returns the response, the limiter afterwards, and how many times the fetch
oracle was invoked. -/
def handleExtractValidated (getMetadata : String → Option ResponseItem)
    (lim : Limiter) (now : ℚ) (durMs : Int) (urlParam : String) :
    HandlerResponse × Limiter × Nat :=
  let adm := lim.allowAt now
  if !adm.1 then (.tooManyRequests, adm.2, 0)
  else if urlParam = "" then (.missingUrl, adm.2, 0)
  else if (parseRequestURI urlParam).isNone then (.invalidUrl, adm.2, 0)
  else
    match getMetadata urlParam with
    | none => (.fetchFailed, adm.2, 1)
    | some metadata => (.ok { metadata with duration := durMs }, adm.2, 1)

/-- Spec-side form of the description rule (§3/§4.1: "last match wins", empty
when no tag matches): the content attribute of the last element matching
`meta[name="description"]`, or `""`. -/
def specLastDescription (doc : Document) : String :=
  match doc.reverse.find? isDescMeta with
  | some e => e.attr "content"
  | none => ""

/-- Spec-side form of the fallback site-name rule (§4.2 step 3): the content
of the fallback document's last `og:title` match, or `""` when absent. -/
def specFallbackTitle (doc : Document) : String :=
  match doc.reverse.find? (fun e => isOgMeta e "og:title") with
  | some e => e.attr "content"
  | none => ""

/-- Equality of every `ResponseItem` field except `duration`. -/
def sameExceptDuration (a b : ResponseItem) : Prop :=
  a.title = b.title ∧ a.description = b.description ∧ a.images = b.images ∧
  a.sitename = b.sitename ∧ a.favicon = b.favicon ∧ a.domain = b.domain ∧
  a.url = b.url

/-! ### Concrete material for the witnesses -/

/-- A document carrying a title and an `og:site_name`. -/
def wDocSite : Document :=
  [⟨"title", [], "Foo"⟩, ⟨"meta", [("property", "og:site_name"), ("content", "S")], ""⟩]

/-- A document with a title but no `og:site_name`. -/
def wDocBare : Document := [⟨"title", [], "Foo"⟩]

/-- A bare-domain document carrying only an `og:title`. -/
def wDocOgTitle : Document := [⟨"meta", [("property", "og:title"), ("content", "FB")], ""⟩]

/-- A page URL whose base domain differs from it. -/
def wUrl : String := "http://example.com/page"

/-- The base domain of `wUrl`. -/
def wDom : String := "http://example.com"

/-- A network on which every fetch succeeds with `wDocSite`. -/
def wNetSite : Net := fun _ => some wDocSite

/-- A network on which every fetch fails. -/
def wNetFail : Net := fun _ => none

/-- A network serving `wDocBare` at `wUrl` and `wDocOgTitle` at the bare
domain. -/
def wNetFallback : Net := fun u =>
  if u = wUrl then some wDocBare else if u = wDom then some wDocOgTitle else none

/-- A stored record for cache scenarios. -/
def wRec : ResponseItem := { title := "T", duration := 3, url := "http://e" }

/-- `wRec` as mutated by a serve with elapsed time 7. -/
def wR7 : ResponseItem := { title := "T", duration := 7, url := "http://e" }

/-- Server state holding `wRec` cached under "http://e" until time 100, with
a full bucket last touched at time 0. -/
def wSt0 : ServerState := ⟨⟨1, 3, 3, 0⟩, [("http://e", ⟨wRec, 100⟩)]⟩

/-- `wSt0` after one admitted serve of "http://e" at time 5 with elapsed 7. -/
def wSt1 : ServerState := ⟨⟨1, 3, 2, 5⟩, [("http://e", ⟨wR7, 100⟩)]⟩


/-! ### Lemmas about the single-pass extraction -/

theorem applyElement_fst_images (st : ResponseItem × WebImage) (e : HtmlElement) :
    (applyElement st e).1.images = st.1.images := by
  obtain ⟨r, w⟩ := st
  simp [applyElement, apply_ite ResponseItem.images]

theorem applyElement_fst_description (st : ResponseItem × WebImage) (e : HtmlElement) :
    (applyElement st e).1.description =
      if isDescMeta e then e.attr "content" else st.1.description := by
  obtain ⟨r, w⟩ := st
  simp [applyElement, apply_ite ResponseItem.description]

theorem foldl_applyElement_images (doc : Document) :
    ∀ st : ResponseItem × WebImage, (doc.foldl applyElement st).1.images = st.1.images := by
  induction doc with
  | nil => intro st; rfl
  | cons e t ih => intro st; rw [List.foldl_cons, ih, applyElement_fst_images]

theorem foldl_applyElement_description (doc : Document) :
    ∀ st : ResponseItem × WebImage,
      (doc.foldl applyElement st).1.description =
        doc.foldl (fun s e => if isDescMeta e then e.attr "content" else s)
          st.1.description := by
  induction doc with
  | nil => intro st; rfl
  | cons e t ih =>
    intro st
    rw [List.foldl_cons, ih, applyElement_fst_description, List.foldl_cons]

theorem foldl_overwrite (p : HtmlElement → Bool) (f : HtmlElement → String)
    (doc : Document) : ∀ init : String,
    doc.foldl (fun s e => if p e then f e else s) init =
      (match doc.reverse.find? p with
       | some e => f e
       | none => init) := by
  induction doc with
  | nil => intro init; rfl
  | cons e t ih =>
    intro init
    rw [List.foldl_cons, ih, List.reverse_cons, List.find?_append]
    cases h : t.reverse.find? p with
    | some e2 => simp [Option.or]
    | none =>
      cases hp : p e <;> simp [Option.or, hp]

/-- Claim C8: for every scraped document exactly one `ImageDescriptor` is
appended to the record's images at end-of-document, whether or not any
`og:image` field matched: the images sequence of every freshly scanned
record, and of every record a cache-miss fetch returns, has length exactly
one. -/
theorem single_image_descriptor (url domain : String) (doc : Document)
    (net : Net) (cch : Cache) (now : ℚ) (u : String) (r : ResponseItem) :
    (scanDocument url domain doc).images.length = 1 ∧
    (cacheGet cch now u = none → (fetchMetadata net cch now u).res = some r →
      r.images.length = 1) := by
  have hscan : ∀ u2 d2 doc2, (scanDocument u2 d2 doc2).images.length = 1 := by
    intro u2 d2 doc2
    simp [scanDocument, foldl_applyElement_images]
  refine ⟨hscan url domain doc, ?_⟩
  intro hmiss hres
  unfold fetchMetadata at hres
  rw [hmiss] at hres
  cases hv : collyVisit net u with
  | none => rw [hv] at hres; simp at hres
  | some doc1 =>
    rw [hv] at hres
    simp only at hres
    split at hres
    · cases hv2 : collyVisit net (getBaseDomain u) with
      | none => rw [hv2] at hres; simp at hres
      | some doc2 =>
        rw [hv2] at hres
        simp only [Option.some.injEq] at hres
        subst hres
        simpa using hscan u (getBaseDomain u) doc1
    · simp only [Option.some.injEq] at hres
      subst hres
      exact hscan u (getBaseDomain u) doc1

/-- Claim C9: the description field is last-match-wins: a document with no
`meta[name="description"]` element yields `description = ""`, and each match
overwrites the previous capture, so the scanned description is the content
attribute of the last matching element. -/
theorem description_last_match_wins (url domain : String) (doc : Document) :
    (scanDocument url domain doc).description = specLastDescription doc := by
  have h1 := foldl_applyElement_description doc
    (({ url := url, images := [], domain := domain } : ResponseItem), ({} : WebImage))
  have h2 := foldl_overwrite isDescMeta (fun e => e.attr "content") doc ""
  simp only [scanDocument, specLastDescription]
  simp only at h1
  rw [h1, h2]

/-- Claim C7: after a successful primary fetch, the fallback fetch of the bare
domain happens exactly when `sitename` is still empty: with a non-empty
sitename the result is returned and cached with a single visit; with an empty
sitename exactly one additional visit of `getBaseDomain url` occurs (with
only the `og:title` matcher active, so nothing but `sitename` can change),
and `sitename` is populated from that fetch's last `og:title` content, or
remains `""` when none is present. -/
theorem sitename_fallback_iff (net : Net) (cch : Cache) (now : ℚ) (url : String)
    (doc : Document) (hmiss : cacheGet cch now url = none)
    (hvisit : collyVisit net url = some doc) :
    ((scanDocument url (getBaseDomain url) doc).sitename ≠ "" →
      fetchMetadata net cch now url =
        ⟨some (scanDocument url (getBaseDomain url) doc),
         cacheSet cch now url (scanDocument url (getBaseDomain url) doc), [url]⟩) ∧
    ((scanDocument url (getBaseDomain url) doc).sitename = "" →
      (fetchMetadata net cch now url).visits = [url, getBaseDomain url] ∧
      ∀ doc2, collyVisit net (getBaseDomain url) = some doc2 →
        (fetchMetadata net cch now url).res =
          some { scanDocument url (getBaseDomain url) doc with
                 sitename := specFallbackTitle doc2 }) := by
  unfold fetchMetadata
  rw [hmiss, hvisit]
  simp only
  constructor
  · intro hne
    rw [if_neg hne]
  · intro heq
    rw [if_pos heq]
    cases hv2 : collyVisit net (getBaseDomain url) with
    | none => simp
    | some doc2 =>
      simp only [Option.some.injEq, true_and, List.cons.injEq, and_true]
      intro doc3 h3
      subst h3
      rw [heq]
      have hf : fallbackSitename doc2 "" = specFallbackTitle doc2 := by
        unfold fallbackSitename
        rw [foldl_overwrite (fun e => isOgMeta e "og:title")
          (fun e => e.attr "content") doc2 ""]
        rfl
      rw [hf]

/-- Claim C3: if the primary fetch fails, or the fallback fetch is triggered
(sitename still empty) and fails, then `fetchMetadata` returns an error, no
record — partial or otherwise — is returned or written to the cache, and the
handler responds 500 with error body "Failed to fetch metadata". -/
theorem fetch_failure_aborts (net : Net) (st : ServerState) (now : ℚ) (d : Int)
    (url : String) (hadm : (st.limiter.allowAt now).1 = true) (hurl : url ≠ "")
    (hmiss : cacheGet st.cch now url = none)
    (hfail : collyVisit net url = none ∨
      ∃ doc, collyVisit net url = some doc ∧
        (scanDocument url (getBaseDomain url) doc).sitename = "" ∧
        collyVisit net (getBaseDomain url) = none) :
    (fetchMetadata net st.cch now url).res = none ∧
    (fetchMetadata net st.cch now url).cache = st.cch ∧
    (serveExtract net st now d url).1 = .fetchFailed ∧
    (serveExtract net st now d url).2.1.cch = st.cch ∧
    HandlerResponse.fetchFailed.status = 500 ∧
    HandlerResponse.fetchFailed.errorText = some "Failed to fetch metadata" := by
  have hf : (fetchMetadata net st.cch now url).res = none ∧
      (fetchMetadata net st.cch now url).cache = st.cch := by
    unfold fetchMetadata
    rw [hmiss]
    rcases hfail with h | ⟨doc, hv, hs, hv2⟩
    · rw [h]; exact ⟨rfl, rfl⟩
    · rw [hv]; simp only; rw [if_pos hs, hv2]; exact ⟨rfl, rfl⟩
  refine ⟨hf.1, hf.2, ?_, ?_, rfl, rfl⟩
  · simp [serveExtract, hadm, hurl, hf.1]
  · simp [serveExtract, hadm, hurl, hf.1, hf.2]

/-- Claim C4, counterexample: for the input ":" URL parsing fails and the
record's domain is the empty string, yet even with a network on which every
fetch would succeed the whole fetch operation fails outright — the empty
domain case does not degrade to favicon/fallback only. -/
theorem empty_domain_counterexample :
    goURLParse ":" = none ∧ getBaseDomain ":" = "" ∧
    (fetchMetadata (fun _ => some []) [] 0 ":").res = none := by
  refine ⟨rfl, rfl, rfl⟩

/-- Claim C4, amended: if URL parsing fails the record's domain is the empty
string (and `getBaseDomain` itself raises no error); but such a url also
fails colly's primary visit, which parses with the same function, so on a
cache miss `fetchMetadata` errors at the primary fetch — before favicon
resolution or the fallback fetch are reached (the visit list stops at the
primary url). Conversely, whenever the url parses, the domain is non-empty. -/
theorem empty_domain_amended (url : String) (net : Net) (cch : Cache) (now : ℚ) :
    (goURLParse url = none → getBaseDomain url = "") ∧
    ((goURLParse url).isSome → getBaseDomain url ≠ "") ∧
    (goURLParse url = none → cacheGet cch now url = none →
      (fetchMetadata net cch now url).res = none ∧
      (fetchMetadata net cch now url).visits = [url]) := by
  refine ⟨?_, ?_, ?_⟩
  · intro h
    unfold getBaseDomain
    rw [h]
  · intro h hdom
    unfold getBaseDomain at hdom
    cases hp : goURLParse url with
    | none => rw [hp] at h; simp at h
    | some u =>
      rw [hp] at hdom
      have h2 := congrArg String.data hdom
      simp [String.data_append] at h2
  · intro hp hmiss
    have hv : collyVisit net url = none := by
      unfold collyVisit
      rcases eq_or_ne url "" with h | h
      · rw [if_pos h]
      · rw [if_neg h, hp]
        simp
    unfold fetchMetadata
    rw [hmiss, hv]
    exact ⟨rfl, rfl⟩

/-- Claim C1, counterexample: the validated handler (src/unnamed/part_000)
accepts "/x" — `ParseRequestURI` admits rooted paths, which have no scheme
and are not absolute URLs — and proceeds to fetch it (one fetch performed,
response 200); moreover the legacy handler (src/src/link-to-JSON.go) performs
no URI validation at all: on `url=not-a-url` it reaches the fetch path (one
visit) and answers 500, not 400. -/
theorem url_validation_counterexample :
    (parseRequestURI "/x").isSome = true ∧
    (parseRequestURI "/x").map GoURL.scheme = some "" ∧
    (handleExtractValidated (fun _ => some {}) rateLimiterInit 5 0 "/x").2.2 = 1 ∧
    (handleExtractValidated (fun _ => some {}) rateLimiterInit 5 0 "/x").1.status = 200 ∧
    (serveExtract (fun _ => none) ⟨rateLimiterInit, []⟩ 5 0 "not-a-url").1 = .fetchFailed ∧
    (serveExtract (fun _ => none) ⟨rateLimiterInit, []⟩ 5 0 "not-a-url").2.2 = ["not-a-url"] := by
  have hA : rateLimiterInit.allowAt 5 = (true, ⟨1, 3, 2, 5⟩) := by
    norm_num [Limiter.allowAt, Limiter.advance, rateLimiterInit]
  refine ⟨by decide, by decide, ?_, ?_, ?_, ?_⟩ <;>
    · simp only [handleExtractValidated, serveExtract, hA]
      decide

/-- Claim C1, amended: in the validated handler, a present url that
`ParseRequestURI` rejects yields 400 with error body "Invalid URL" and no
fetch; and any url that reaches the fetch path was accepted by
`ParseRequestURI` (an absolute URI or a rooted request path — not
necessarily an absolute URL). The legacy handler performs no such
validation. -/
theorem url_validation_amended (g : String → Option ResponseItem) (lim : Limiter)
    (now : ℚ) (d : Int) (url : String) :
    ((lim.allowAt now).1 = true → url ≠ "" → parseRequestURI url = none →
      handleExtractValidated g lim now d url = (.invalidUrl, (lim.allowAt now).2, 0) ∧
      HandlerResponse.invalidUrl.status = 400 ∧
      HandlerResponse.invalidUrl.errorText = some "Invalid URL") ∧
    ((handleExtractValidated g lim now d url).2.2 ≠ 0 → (parseRequestURI url).isSome) := by
  constructor
  · intro ha hu hp
    refine ⟨?_, rfl, rfl⟩
    simp [handleExtractValidated, ha, hu, hp]
  · intro hn
    cases hps : parseRequestURI url with
    | some u => simp
    | none =>
      exfalso
      apply hn
      simp [handleExtractValidated, hps,
        apply_ite (fun x : HandlerResponse × Limiter × Nat => x.2.2)]

/-- Claim C1 amended, witness: at `url = "not-a-url"` (which
`ParseRequestURI` rejects) from a fresh limiter at time 5, the validated
handler answers 400 "Invalid URL" with zero fetch-library calls. -/
theorem url_validation_amended_witness :
    handleExtractValidated (fun _ => some {}) rateLimiterInit 5 0 "not-a-url" =
      (.invalidUrl, (rateLimiterInit.allowAt 5).2, 0) ∧
    HandlerResponse.invalidUrl.status = 400 ∧
    HandlerResponse.invalidUrl.errorText = some "Invalid URL" :=
  (url_validation_amended (fun _ => some {}) rateLimiterInit 5 0 "not-a-url").1
    (by norm_num [Limiter.allowAt, Limiter.advance, rateLimiterInit])
    (by decide) (by decide)

/-! ### Cache lemmas -/

theorem find?_cacheDurationWrite (c : Cache) (u : String) (d : Int) (k : String) :
    (cacheDurationWrite c u d).find? (fun p => p.1 == k) =
      (c.find? (fun p => p.1 == k)).map
        (fun p => if p.1 == u then (p.1, ⟨{ p.2.item with duration := d }, p.2.expiration⟩)
                  else p) := by
  unfold cacheDurationWrite
  rw [List.find?_map]
  have hpred : ((fun p : String × CacheEntry => p.1 == k) ∘
      (fun p : String × CacheEntry =>
        if p.1 == u then (p.1, ⟨{ p.2.item with duration := d }, p.2.expiration⟩) else p)) =
      fun p : String × CacheEntry => p.1 == k := by
    funext p
    by_cases hp : p.1 == u <;> simp [Function.comp, hp]
  rw [hpred]

theorem cacheGet_durationWrite (c : Cache) (u : String) (d : Int) (now : ℚ) (k : String) :
    cacheGet (cacheDurationWrite c u d) now k =
      if k = u then (cacheGet c now k).map (fun r => { r with duration := d })
      else cacheGet c now k := by
  unfold cacheGet
  rw [find?_cacheDurationWrite]
  cases h : c.find? (fun p => p.1 == k) with
  | none => simp
  | some p =>
    have hk : p.1 = k := by
      have := List.find?_some h
      simpa using this
    by_cases hku : k = u
    · subst hku
      rw [if_pos (by simp [hk])]
      simp only [Option.map_some]
      by_cases hexp : 0 < p.2.expiration ∧ p.2.expiration < now <;> simp [hexp, hk]
    · rw [if_neg hku]
      simp [hk, hku]

theorem cacheGet_set_ne (c : Cache) (now t : ℚ) (u k : String) (v : ResponseItem)
    (hne : k ≠ u) : cacheGet (cacheSet c now u v) t k = cacheGet c t k := by
  unfold cacheGet cacheSet
  rw [List.find?_cons_of_neg _ (by simp [Ne.symm hne]), List.find?_filter]
  have hpred : (fun a : String × CacheEntry =>
      decide (decide (a.1 ≠ u) = true ∧ (a.1 == k) = true)) =
      fun p : String × CacheEntry => p.1 == k := by
    funext p
    by_cases hp : p.1 = u <;> by_cases hk2 : p.1 = k <;>
      simp [hp, hk2, hne, Ne.symm hne]
  rw [hpred]

theorem fetchMetadata_cache_cases (net : Net) (cch : Cache) (now : ℚ) (url : String) :
    (fetchMetadata net cch now url).cache = cch ∨
    ∃ v, (fetchMetadata net cch now url).cache = cacheSet cch now url v := by
  unfold fetchMetadata
  cases cacheGet cch now url with
  | some m => exact Or.inl rfl
  | none =>
    cases collyVisit net url with
    | none => exact Or.inl rfl
    | some doc =>
      simp only
      split
      · cases collyVisit net (getBaseDomain url) with
        | none => exact Or.inl rfl
        | some doc2 => exact Or.inr ⟨_, rfl⟩
      · exact Or.inr ⟨_, rfl⟩

/-- On a cache hit, `fetchMetadata` returns the cached record, touches
nothing, and performs no visit. -/
theorem fetchMetadata_hit (net : Net) (cch : Cache) (now : ℚ) (url : String)
    (r : ResponseItem) (h : cacheGet cch now url = some r) :
    fetchMetadata net cch now url = ⟨some r, cch, []⟩ := by
  unfold fetchMetadata
  rw [h]

theorem cacheGet_some_entry (cch : Cache) (now : ℚ) (k : String) (r : ResponseItem)
    (h : cacheGet cch now k = some r) :
    ∃ e : CacheEntry, cch.find? (fun p => p.1 == k) = some (k, e) ∧ e.item = r ∧
      ¬(0 < e.expiration ∧ e.expiration < now) := by
  unfold cacheGet at h
  cases hf : cch.find? (fun p => p.1 == k) with
  | none => rw [hf] at h; cases h
  | some p =>
    obtain ⟨k0, e⟩ := p
    rw [hf] at h
    simp only at h
    have hk : k0 = k := by simpa using List.find?_some hf
    subst hk
    split at h
    next => cases h
    next hexp =>
      injection h with h2
      exact ⟨e, rfl, h2, hexp⟩

theorem find?_cacheSet_self (c : Cache) (now : ℚ) (u : String) (v : ResponseItem) :
    (cacheSet c now u v).find? (fun p => p.1 == u) = some (u, ⟨v, now + cacheTTL⟩) := by
  unfold cacheSet
  rw [List.find?_cons_of_pos _ (by simp)]

theorem fetchMetadata_some_entry (net : Net) (cch : Cache) (now : ℚ) (url : String)
    (r : ResponseItem) (h : (fetchMetadata net cch now url).res = some r) :
    ∃ e : CacheEntry,
      (fetchMetadata net cch now url).cache.find? (fun p => p.1 == url) = some (url, e) ∧
      e.item = r := by
  unfold fetchMetadata at h ⊢
  cases hc : cacheGet cch now url with
  | some m =>
    rw [hc] at h
    obtain rfl : m = r := by simpa using h
    obtain ⟨e, hf, hi, _⟩ := cacheGet_some_entry cch now url m hc
    exact ⟨e, by simpa using hf, hi⟩
  | none =>
    rw [hc] at h
    cases hv : collyVisit net url with
    | none => rw [hv] at h; simp at h
    | some doc =>
      rw [hv] at h
      simp only at h ⊢
      split at h
      next hcond =>
        rw [if_pos hcond]
        cases hv2 : collyVisit net (getBaseDomain url) with
        | none => rw [hv2] at h; simp at h
        | some doc2 =>
          rw [hv2] at h
          refine ⟨_, find?_cacheSet_self cch now url _, ?_⟩
          simpa using h
      next hcond =>
        rw [if_neg hcond]
        refine ⟨_, find?_cacheSet_self cch now url _, ?_⟩
        simpa using h

theorem serveExtract_ok_entry (net : Net) (st : ServerState) (now : ℚ) (d : Int)
    (url : String) (r : ResponseItem) (st2 : ServerState) (vs : List String)
    (h : serveExtract net st now d url = (.ok r, st2, vs)) :
    url ≠ "" ∧ ∃ e : CacheEntry,
      st2.cch.find? (fun p => p.1 == url) = some (url, e) ∧ e.item = r := by
  unfold serveExtract at h
  simp only at h
  split at h
  next => simp at h
  next hadm =>
    split at h
    next hemp => simp at h
    next hemp =>
      split at h
      next heq => simp at h
      next m heq =>
        simp only [Prod.mk.injEq, HandlerResponse.ok.injEq] at h
        obtain ⟨hr, hst, hvs⟩ := h
        obtain ⟨e, hf, hi⟩ := fetchMetadata_some_entry net st.cch now url m heq
        refine ⟨hemp, ⟨{ item := { e.item with duration := d }, expiration := e.expiration }, ?_, ?_⟩⟩
        · rw [← hst]
          simp only
          rw [find?_cacheDurationWrite, hf]
          simp
        · rw [hi, ← hr]

theorem fetchMetadata_none_cache (net : Net) (cch : Cache) (now : ℚ) (url : String)
    (h : (fetchMetadata net cch now url).res = none) :
    (fetchMetadata net cch now url).cache = cch := by
  unfold fetchMetadata at h ⊢
  cases hc : cacheGet cch now url with
  | some m => rfl
  | none =>
    rw [hc] at h
    cases hv : collyVisit net url with
    | none => rfl
    | some doc =>
      rw [hv] at h
      simp only at h ⊢
      split at h
      next hcond =>
        rw [if_pos hcond]
        cases hv2 : collyVisit net (getBaseDomain url) with
        | none => rfl
        | some doc2 => rw [hv2] at h; simp at h
      next hcond => simp at h

/-- Claim C2: serving any request leaves every live cached record's fields
unchanged except `duration`: the only mutation that reaches a stored record
from outside the cache is the handler's `metadata.Duration` write through the
shared pointer, which is exactly what the spec's durationMs-overwrite rule
allows (and it can only touch the entry of the requested url). -/
theorem cache_no_external_mutation (net : Net) (st : ServerState) (now : ℚ)
    (d : Int) (urlParam k : String) (r : ResponseItem)
    (h : cacheGet st.cch now k = some r) :
    ∃ r2, cacheGet (serveExtract net st now d urlParam).2.1.cch now k = some r2 ∧
      sameExceptDuration r r2 := by
  have hrefl : sameExceptDuration r r := ⟨rfl, rfl, rfl, rfl, rfl, rfl, rfl⟩
  unfold serveExtract
  simp only
  split
  · exact ⟨r, h, hrefl⟩
  next hadm =>
    split
    next hemp => exact ⟨r, h, hrefl⟩
    next hemp =>
      split
      next heq =>
        simp only
        rw [fetchMetadata_none_cache net st.cch now urlParam heq]
        exact ⟨r, h, hrefl⟩
      next m heq =>
        simp only
        rw [cacheGet_durationWrite]
        by_cases hk : k = urlParam
        · rw [if_pos hk]
          subst hk
          have hfm := fetchMetadata_hit net st.cch now k r h
          rw [hfm]
          simp only [h, Option.map_some]
          refine ⟨{ r with duration := d }, ?_, ?_⟩
          · rfl
          · exact ⟨rfl, rfl, rfl, rfl, rfl, rfl, rfl⟩
        · rw [if_neg hk]
          rcases fetchMetadata_cache_cases net st.cch now urlParam with hc | ⟨v, hc⟩
          · rw [hc]; exact ⟨r, h, hrefl⟩
          · rw [hc, cacheGet_set_ne st.cch now now urlParam k v hk]
            exact ⟨r, h, hrefl⟩

/-- Claim C5: when a serve returned 200 with record `r1` and the entry for
that url is still live at the time of the next request for the same url
(admitted by the limiter), the second serve performs no network visit and
answers 200 with a record equal to `r1` in every field except `duration`,
which becomes the second request's elapsed time. -/
theorem cache_hit_second_request (net : Net) (st0 : ServerState) (t1 t2 : ℚ)
    (d1 d2 : Int) (url : String) (r1 : ResponseItem) (st1 : ServerState)
    (vs1 : List String)
    (h1 : serveExtract net st0 t1 d1 url = (.ok r1, st1, vs1))
    (hadm : (st1.limiter.allowAt t2).1 = true)
    (hlive : (cacheGet st1.cch t2 url).isSome) :
    (serveExtract net st1 t2 d2 url).1 = .ok { r1 with duration := d2 } ∧
    (serveExtract net st1 t2 d2 url).2.2 = [] := by
  obtain ⟨hu, e, hf, hi⟩ := serveExtract_ok_entry net st0 t1 d1 url r1 st1 vs1 h1
  have hget : cacheGet st1.cch t2 url = some r1 := by
    unfold cacheGet at hlive ⊢
    rw [hf] at hlive ⊢
    simp only at hlive ⊢
    split at hlive
    next => simp at hlive
    next hexp => rw [if_neg hexp, hi]
  have hfm := fetchMetadata_hit net st1.cch t2 url r1 hget
  unfold serveExtract
  simp only [hadm, Bool.not_true, Bool.false_eq_true, if_false, hu, if_neg, hfm]
  constructor <;> simp [hu]

/-! ### Limiter lemmas -/

theorem advance_at_self (t tok : ℚ) (h3 : tok ≤ 3) :
    (Limiter.mk 1 3 tok t).advance t = tok := by
  unfold Limiter.advance
  simp only
  rw [if_neg (lt_irrefl t)]
  have he : tok + (t - t) * 1 = tok := by ring
  rw [he]
  rw [if_neg (by intro hcon; push_cast at hcon; linarith)]

theorem advance_at_next (t : ℚ) : (Limiter.mk 1 3 0 t).advance (t + 1) = 1 := by
  unfold Limiter.advance
  simp only
  rw [if_neg (by linarith : ¬ t + 1 < t)]
  have he : (0 : ℚ) + (t + 1 - t) * 1 = 1 := by ring
  rw [he]
  rw [if_neg (by intro hcon; push_cast at hcon; linarith)]

theorem advance_init (t0 : ℚ) (h : 3 ≤ t0) : rateLimiterInit.advance t0 = 3 := by
  unfold Limiter.advance rateLimiterInit
  simp only
  rw [if_neg (by linarith : ¬ t0 < (0 : ℚ))]
  split
  next => norm_num
  next h2 => push_cast at h2 ⊢; linarith

theorem allowAt_full (t0 : ℚ) (h : 3 ≤ t0) :
    rateLimiterInit.allowAt t0 = (true, ⟨1, 3, 2, t0⟩) := by
  unfold Limiter.allowAt
  rw [advance_init t0 h]
  rw [if_pos ⟨by norm_num [rateLimiterInit], by norm_num⟩]
  norm_num [rateLimiterInit]

theorem allowAt_tokens (t tok : ℚ) (h1 : 1 ≤ tok) (h3 : tok ≤ 3) :
    (Limiter.mk 1 3 tok t).allowAt t = (true, ⟨1, 3, tok - 1, t⟩) := by
  unfold Limiter.allowAt
  rw [advance_at_self t tok h3]
  rw [if_pos ⟨by norm_num, by linarith⟩]

theorem allowAt_empty (t : ℚ) :
    (Limiter.mk 1 3 0 t).allowAt t = (false, ⟨1, 3, 0, t⟩) := by
  unfold Limiter.allowAt
  rw [advance_at_self t 0 (by norm_num)]
  rw [if_neg (by norm_num)]

theorem allowAt_refill (t : ℚ) :
    (Limiter.mk 1 3 0 t).allowAt (t + 1) = (true, ⟨1, 3, 0, t + 1⟩) := by
  unfold Limiter.allowAt
  rw [advance_at_next t]
  rw [if_pos ⟨by norm_num, by norm_num⟩]
  norm_num

theorem allowRun_drained (t : ℚ) (k : Nat) (rest : List ℚ) :
    allowRun ⟨1, 3, 0, t⟩ (List.replicate k t ++ rest) =
      List.replicate k false ++ allowRun ⟨1, 3, 0, t⟩ rest := by
  induction k with
  | zero => simp
  | succ n ih =>
    simp only [List.replicate_succ, List.cons_append, allowRun, allowAt_empty]
    exact congrArg (List.cons false) ih

/-- Claim C6: the rate limiter is a token bucket of burst 3 refilling one
token per second: from a fresh limiter, `3 + k` requests at one instant
`t0` admit exactly the first 3 and deny the `k` beyond the burst, and after
waiting one second exactly one further request is admitted (a sixth at the
same instant is denied); a denied request is answered 429 with error body
"Too many requests". (`3 ≤ t0` places the call after the Go zero time, at
which point the fresh bucket is full.) -/
theorem rate_limiter_burst_refill (t0 : ℚ) (k : Nat) (h : 3 ≤ t0)
    (st : ServerState) (net : Net) (now : ℚ) (d : Int) (u : String) :
    allowRun rateLimiterInit (List.replicate (3 + k) t0 ++ [t0 + 1, t0 + 1]) =
      [true, true, true] ++ List.replicate k false ++ [true, false] ∧
    ((st.limiter.allowAt now).1 = false →
      (serveExtract net st now d u).1 = .tooManyRequests ∧
      HandlerResponse.tooManyRequests.status = 429 ∧
      HandlerResponse.tooManyRequests.errorText = some "Too many requests") := by
  constructor
  · rw [Nat.add_comm 3 k]
    simp only [List.replicate_succ, List.cons_append, allowRun, allowAt_full t0 h]
    norm_num [allowAt_tokens t0 2 (by norm_num) (by norm_num),
      allowAt_tokens t0 1 (by norm_num) (by norm_num)]
    rw [allowRun_drained t0 k [t0 + 1, t0 + 1]]
    simp only [allowRun, allowAt_refill t0, allowAt_empty (t0 + 1)]
  · intro hden
    refine ⟨?_, rfl, rfl⟩
    unfold serveExtract
    simp [hden]

theorem allowAt_true_tokens (lim : Limiter) (now : ℚ)
    (h : (lim.allowAt now).1 = true) :
    (lim.allowAt now).2.tokens = lim.advance now - 1 := by
  unfold Limiter.allowAt at h ⊢
  simp only at h ⊢
  split at h
  next hc => rw [if_pos hc]
  next hc => rw [if_neg hc]; simp at h

/-- Claim C10: both `/extract` handlers call `rateLimiter.Allow()` before
reading or validating the `url` query parameter: a denied request is answered
429 whatever the url; the limiter state in the handler's outcome is always
the post-`Allow` state; and a request that fails validation with 400 (missing
url, or — in the validated handler — an invalid url) has still consumed a
token whenever one was available (the token balance afterwards is the
refilled balance minus one). -/
theorem limiter_before_validation (net : Net) (g : String → Option ResponseItem)
    (st : ServerState) (lim : Limiter) (now : ℚ) (d : Int) (url : String) :
    ((st.limiter.allowAt now).1 = false →
      (serveExtract net st now d url).1 = .tooManyRequests) ∧
    ((lim.allowAt now).1 = false →
      (handleExtractValidated g lim now d url).1 = .tooManyRequests) ∧
    (serveExtract net st now d url).2.1.limiter = (st.limiter.allowAt now).2 ∧
    (handleExtractValidated g lim now d url).2.1 = (lim.allowAt now).2 ∧
    ((lim.allowAt now).1 = true → url ≠ "" → (parseRequestURI url).isNone →
      (handleExtractValidated g lim now d url).1 = .invalidUrl ∧
      (lim.allowAt now).2.tokens = lim.advance now - 1) ∧
    ((st.limiter.allowAt now).1 = true → url = "" →
      (serveExtract net st now d url).1 = .missingUrl ∧
      (st.limiter.allowAt now).2.tokens = st.limiter.advance now - 1) := by
  refine ⟨?_, ?_, ?_, ?_, ?_, ?_⟩
  · intro hden
    unfold serveExtract
    simp [hden]
  · intro hden
    unfold handleExtractValidated
    simp [hden]
  · unfold serveExtract
    simp only
    split
    · rfl
    split
    · rfl
    split <;> rfl
  · unfold handleExtractValidated
    simp only
    split
    · rfl
    split
    · rfl
    split
    · rfl
    split <;> rfl
  · intro hadm hu hp
    refine ⟨?_, allowAt_true_tokens lim now hadm⟩
    unfold handleExtractValidated
    simp [hadm, hu, hp]
  · intro hadm hu
    refine ⟨?_, allowAt_true_tokens st.limiter now hadm⟩
    unfold serveExtract
    simp [hadm, hu]

/-- Claim C2, witness: with `wRec` stored live under "http://e", serving an
unrelated url leaves a record equal to it in all fields but duration. -/
theorem cache_no_external_mutation_witness :
    ∃ r2, cacheGet (serveExtract wNetFail wSt0 5 0 "x").2.1.cch 5 "http://e" = some r2 ∧
      sameExceptDuration wRec r2 :=
  cache_no_external_mutation wNetFail wSt0 5 0 "x" "http://e" wRec (by decide)

/-- Claim C3, witness: with the cache empty and every network fetch failing,
the fetch of "http://e" errors, caches nothing, and the handler answers 500
"Failed to fetch metadata". -/
theorem fetch_failure_aborts_witness :
    (fetchMetadata wNetFail ([] : Cache) 5 "http://e").res = none ∧
    (fetchMetadata wNetFail ([] : Cache) 5 "http://e").cache = ([] : Cache) ∧
    (serveExtract wNetFail ⟨rateLimiterInit, []⟩ 5 0 "http://e").1 = .fetchFailed ∧
    (serveExtract wNetFail ⟨rateLimiterInit, []⟩ 5 0 "http://e").2.1.cch = ([] : Cache) ∧
    HandlerResponse.fetchFailed.status = 500 ∧
    HandlerResponse.fetchFailed.errorText = some "Failed to fetch metadata" :=
  fetch_failure_aborts wNetFail ⟨rateLimiterInit, []⟩ 5 0 "http://e"
    (by simp [allowAt_full 5 (by norm_num)]) (by decide) (by decide)
    (Or.inl (by decide))

/-- Claim C4 amended, witness: at ":" parsing fails, the domain is empty and
the fetch aborts at the primary visit; at "http://e" parsing succeeds and the
domain is non-empty. -/
theorem empty_domain_amended_witness :
    getBaseDomain ":" = "" ∧ getBaseDomain "http://e" ≠ "" ∧
    (fetchMetadata wNetSite ([] : Cache) 0 ":").res = none ∧
    (fetchMetadata wNetSite ([] : Cache) 0 ":").visits = [":"] :=
  ⟨(empty_domain_amended ":" wNetSite [] 0).1 rfl,
   (empty_domain_amended "http://e" wNetSite [] 0).2.1 (by decide),
   ((empty_domain_amended ":" wNetSite [] 0).2.2 rfl rfl).1,
   ((empty_domain_amended ":" wNetSite [] 0).2.2 rfl rfl).2⟩

/-- Claim C5, witness: after a 200 serve of "http://e" at time 5, a second
request at time 6 is served from the cache with no visit, equal except for
its duration. -/
theorem cache_hit_second_request_witness :
    (serveExtract wNetFail wSt1 6 9 "http://e").1 = .ok { wR7 with duration := 9 } ∧
    (serveExtract wNetFail wSt1 6 9 "http://e").2.2 = [] := by
  have hA : (Limiter.mk 1 3 3 0).allowAt 5 = (true, ⟨1, 3, 2, 5⟩) := by
    norm_num [Limiter.allowAt, Limiter.advance]
  have h1 : serveExtract wNetFail wSt0 5 7 "http://e" = (.ok wR7, wSt1, []) := by
    unfold serveExtract
    simp only [wSt0, hA]
    decide
  exact cache_hit_second_request wNetFail wSt0 5 6 7 9 "http://e" wR7 wSt1 [] h1
    (by norm_num [wSt1, Limiter.allowAt, Limiter.advance]) (by decide)

/-- Claim C6, witness: from a fresh limiter, four requests at time 3 give
three admissions and one denial, one more is admitted at time 4 and the next
denied; a denied request (drained bucket at its own last-touch time) is
answered 429 "Too many requests". -/
theorem rate_limiter_burst_refill_witness :
    allowRun rateLimiterInit (List.replicate (3 + 1) 3 ++ [3 + 1, 3 + 1]) =
      [true, true, true] ++ List.replicate 1 false ++ [true, false] ∧
    ((serveExtract wNetFail ⟨⟨1, 3, 0, 5⟩, []⟩ 5 0 "u").1 = .tooManyRequests ∧
     HandlerResponse.tooManyRequests.status = 429 ∧
     HandlerResponse.tooManyRequests.errorText = some "Too many requests") :=
  ⟨(rate_limiter_burst_refill 3 1 (by norm_num) ⟨⟨1, 3, 0, 5⟩, []⟩ wNetFail 5 0 "u").1,
   (rate_limiter_burst_refill 3 1 (by norm_num) ⟨⟨1, 3, 0, 5⟩, []⟩ wNetFail 5 0 "u").2
     (by norm_num [Limiter.allowAt, Limiter.advance])⟩

/-- Claim C7, witness: fetching `wUrl` over `wNetFallback` (whose page lacks
`og:site_name`) visits exactly the page and then the bare domain, and the
sitename comes from the bare domain's `og:title`. -/
theorem sitename_fallback_iff_witness :
    (fetchMetadata wNetFallback ([] : Cache) 0 wUrl).visits = [wUrl, getBaseDomain wUrl] ∧
    (fetchMetadata wNetFallback ([] : Cache) 0 wUrl).res =
      some { scanDocument wUrl (getBaseDomain wUrl) wDocBare with
             sitename := specFallbackTitle wDocOgTitle } := by
  have h := (sitename_fallback_iff wNetFallback [] 0 wUrl wDocBare rfl (by decide)).2
    (by decide)
  exact ⟨h.1, h.2 wDocOgTitle (by decide)⟩

/-- Claim C8, witness: the empty document scans to a one-element image list,
and the record fetched for `wUrl` over `wNetSite` from an empty cache has
exactly one image descriptor. -/
theorem single_image_descriptor_witness :
    (scanDocument "u" "d" ([] : Document)).images.length = 1 ∧
    (scanDocument wUrl (getBaseDomain wUrl) wDocSite).images.length = 1 :=
  ⟨(single_image_descriptor "u" "d" [] wNetSite [] 0 wUrl
      (scanDocument wUrl (getBaseDomain wUrl) wDocSite)).1,
   (single_image_descriptor "u" "d" [] wNetSite [] 0 wUrl
      (scanDocument wUrl (getBaseDomain wUrl) wDocSite)).2 rfl (by decide)⟩

/-- Claim C10, witness: a drained limiter at its own last-touch time denies
both handlers with 429 regardless of the url; with tokens available, the
missing-url and invalid-url 400 responses still consume a token. -/
theorem limiter_before_validation_witness :
    (serveExtract wNetFail ⟨⟨1, 3, 0, 5⟩, []⟩ 5 0 "http://e").1 = .tooManyRequests ∧
    (handleExtractValidated (fun _ => some {}) ⟨1, 3, 0, 5⟩ 5 0 "http://e").1 =
      .tooManyRequests ∧
    ((handleExtractValidated (fun _ => some {}) rateLimiterInit 5 0 "not-a-url").1 =
        .invalidUrl ∧
      (rateLimiterInit.allowAt 5).2.tokens = rateLimiterInit.advance 5 - 1) ∧
    ((serveExtract wNetFail ⟨rateLimiterInit, []⟩ 5 0 "").1 = .missingUrl ∧
      (rateLimiterInit.allowAt 5).2.tokens = rateLimiterInit.advance 5 - 1) := by
  refine ⟨?_, ?_, ?_, ?_⟩
  · exact (limiter_before_validation wNetFail (fun _ => some {}) ⟨⟨1, 3, 0, 5⟩, []⟩
      ⟨1, 3, 0, 5⟩ 5 0 "http://e").1 (by norm_num [Limiter.allowAt, Limiter.advance])
  · exact (limiter_before_validation wNetFail (fun _ => some {}) ⟨⟨1, 3, 0, 5⟩, []⟩
      ⟨1, 3, 0, 5⟩ 5 0 "http://e").2.1 (by norm_num [Limiter.allowAt, Limiter.advance])
  · exact (limiter_before_validation wNetFail (fun _ => some {}) ⟨rateLimiterInit, []⟩
      rateLimiterInit 5 0 "not-a-url").2.2.2.2.1
      (by simp [allowAt_full 5 (by norm_num)]) (by decide) (by decide)
  · exact (limiter_before_validation wNetFail (fun _ => some {}) ⟨rateLimiterInit, []⟩
      rateLimiterInit 5 0 "").2.2.2.2.2
      (by simp [allowAt_full 5 (by norm_num)]) rfl
